import Mathlib

set_option autoImplicit false

/-!
Shallow embedding of the Voter-Container service (Go):
  - data-access layer: voter-api/db/voter.go
  - HTTP handler layer: the api package (fiber handlers)

The Redis JSON-document store is modelled as an association list from
string keys to voter documents with unique keys.  Go slices are modelled
as `Option (List _)`: `none` is the nil slice, `some l` a non-nil slice
with elements `l`.  This distinction is observable in Go through JSON
marshalling (nil marshals to `null`, a non-nil empty slice to `[]`) and
is preserved by the store round trip, so the model keeps it.
-/

namespace VoterContainer

/-- Decidable equality for `Except`, so that the embedded operations
can be evaluated at concrete inputs. -/
instance {ε α : Type} [DecidableEq ε] [DecidableEq α] : DecidableEq (Except ε α)
  | Except.error e, Except.error f => decidable_of_iff (e = f) (by simp)
  | Except.error _, Except.ok _ => isFalse (by simp)
  | Except.ok _, Except.error _ => isFalse (by simp)
  | Except.ok a, Except.ok b => decidable_of_iff (a = b) (by simp)

/-- Constant from voter.go: the fixed key namespace string `"voter:"`. -/
def RedisKeyPrefix : String := "voter:"

/-- VoterHistory struct (voter.go).  `time.Time` is modelled as an
opaque integer timestamp; no claim depends on time arithmetic. -/
structure VoterHistory where
  PollId : Int
  VoteId : Int
  VoteDate : Int
  deriving Repr, DecidableEq

/-- VoterItem struct (voter.go).  `VoteHistory` is a Go slice:
`none` models the nil slice, `some l` a non-nil slice. -/
structure VoterItem where
  VoterId : Int
  Name : String
  Email : String
  VoteHistory : Option (List VoterHistory)
  deriving Repr, DecidableEq

/-- The Redis store: string keys to JSON voter documents. -/
abbrev Store := List (String × VoterItem)

/-- Go slice append: `append(s, x)` always yields a non-nil slice. -/
def goAppend {α : Type} (s : Option (List α)) (x : α) : Option (List α) :=
  some (s.getD [] ++ [x])

/-- The element view of a Go slice: ranging over a nil slice sees no
elements, so `none` and `some []` range identically. -/
def sliceElems {α : Type} (s : Option (List α)) : List α := s.getD []

/-- The history entries of a voter, as ranged over by Go `for` loops. -/
def histList (v : VoterItem) : List VoterHistory := sliceElems v.VoteHistory

/-- Redis GET of one key (first entry with that key). -/
def kvGet : Store → String → Option VoterItem
  | [], _ => none
  | (k, v) :: rest, key => if k = key then some v else kvGet rest key

/-- Redis JSON.SET of one key: overwrite if present, else insert. -/
def kvSet : Store → String → VoterItem → Store
  | [], key, item => [(key, item)]
  | (k, v) :: rest, key, item =>
    if k = key then (key, item) :: rest else (k, v) :: kvSet rest key item

/-- Removal of every entry stored at one key. -/
def kvEraseKey : Store → String → Store
  | [], _ => []
  | (k, v) :: rest, key =>
    if k = key then kvEraseKey rest key else (k, v) :: kvEraseKey rest key

/-- The deletion pass of a DEL command over its keys: deletes each
key, returns how many of them existed at deletion time. -/
def kvDelLoop : Store → List String → Nat × Store
  | s, [] => (0, s)
  | s, key :: keys =>
    let hit := (kvGet s key).isSome
    let rest := kvDelLoop (kvEraseKey s key) keys
    ((if hit then 1 else 0) + rest.1, rest.2)

/-- Redis DEL as issued by go-redis: the command requires at least one
key, so a DEL built from an empty key slice is sent bare and rejected
by the server with an arity error; with one key or more it deletes
each key and returns how many existed. -/
def kvDel (s : Store) (keys : List String) : Except String Nat × Store :=
  match keys with
  | [] => (Except.error "ERR wrong number of arguments for 'del' command", s)
  | _ =>
    let r := kvDelLoop s keys
    (Except.ok r.1, r.2)

/-- Whether a key matches the glob `voter:*`, i.e. starts with the
fixed key namespace string. -/
def hasVoterKeyPfx (k : String) : Bool :=
  k.data.take RedisKeyPrefix.data.length = RedisKeyPrefix.data

namespace db

/-- redisKeyFromId (voter.go): `fmt.Sprintf("%s%d", RedisKeyPrefix, id)`. -/
def redisKeyFromId (id : Int) : String :=
  RedisKeyPrefix ++ toString id

/-- getAllKeys (voter.go): all keys matching `voter:*`. -/
def getAllKeys (s : Store) : List String :=
  (s.map Prod.fst).filter hasVoterKeyPfx

/-- getVoterFromRedis (voter.go): JSONGet of the whole document plus
unmarshal; `redis: nil` error when the key is absent. -/
def getVoterFromRedis (s : Store) (key : String) : Except String VoterItem :=
  match kvGet s key with
  | some item => Except.ok item
  | none => Except.error "redis: nil"

/-- AddVoter (voter.go): error if the key already holds a document,
otherwise JSON.SET the new document. -/
def AddVoter (s : Store) (voterItem : VoterItem) : Except String Unit × Store :=
  match getVoterFromRedis s (redisKeyFromId voterItem.VoterId) with
  | Except.ok _ => (Except.error "voter already exists", s)
  | Except.error _ =>
    (Except.ok (), kvSet s (redisKeyFromId voterItem.VoterId) voterItem)

/-- DeleteVoter (voter.go): DEL the one key, propagate a DEL error,
otherwise error if nothing was deleted. -/
def DeleteVoter (s : Store) (id : Int) : Except String Unit × Store :=
  match kvDel s [redisKeyFromId id] with
  | (Except.error e, s2) => (Except.error e, s2)
  | (Except.ok numDeleted, s2) =>
    if numDeleted = 0 then
      (Except.error "attempted to delete non-existent voterr", s2)
    else
      (Except.ok (), s2)

/-- DeleteAll (voter.go): DEL every key returned by getAllKeys and
return the count together with the error DEL raised, if any (with no
matching key the zero-key DEL errors). -/
def DeleteAll (s : Store) : Except String Nat × Store :=
  kvDel s (getAllKeys s)

/-- UpdateVoter (voter.go): error if the key holds no document,
otherwise JSON.SET (full overwrite, no merge). -/
def UpdateVoter (s : Store) (voterItem : VoterItem) : Except String Unit × Store :=
  match getVoterFromRedis s (redisKeyFromId voterItem.VoterId) with
  | Except.error _ => (Except.error "voter does not exist", s)
  | Except.ok _ =>
    (Except.ok (), kvSet s (redisKeyFromId voterItem.VoterId) voterItem)

/-- GetVoter (voter.go). -/
def GetVoter (s : Store) (id : Int) : Except String VoterItem :=
  getVoterFromRedis s (redisKeyFromId id)

/-- The key loop of GetAllVoters (voter.go): fetch each key, abort on
error, append into the (initially nil) result slice. -/
def getAllVotersLoop (s : Store) :
    List String → Option (List VoterItem) → Except String (Option (List VoterItem))
  | [], acc => Except.ok acc
  | key :: ks, acc =>
    match getVoterFromRedis s key with
    | Except.error e => Except.error e
    | Except.ok item => getAllVotersLoop s ks (goAppend acc item)

/-- GetAllVoters (voter.go): KEYS `voter:*`, then fetch each.  The
result slice stays nil when no key matches. -/
def GetAllVoters (s : Store) : Except String (Option (List VoterItem)) :=
  getAllVotersLoop s (getAllKeys s) none

/-- GetVoterPolls (voter.go): the whole parent document's history slice. -/
def GetVoterPolls (s : Store) (voterID : Int) :
    Except String (Option (List VoterHistory)) :=
  match GetVoter s voterID with
  | Except.error e => Except.error e
  | Except.ok voterItem => Except.ok voterItem.VoteHistory

/-- The linear scan shared by GetVoterPoll (voter.go) and the handler
GetVoterPoll: the first entry whose `PollId` matches. -/
def findPoll : List VoterHistory → Int → Option VoterHistory
  | [], _ => none
  | vh :: rest, pollID =>
    if vh.PollId = pollID then some vh else findPoll rest pollID

/-- GetVoterPoll (voter.go). -/
def GetVoterPoll (s : Store) (voterID pollID : Int) : Except String VoterHistory :=
  match GetVoter s voterID with
  | Except.error e => Except.error e
  | Except.ok voterItem =>
    match findPoll (histList voterItem) pollID with
    | some h => Except.ok h
    | none => Except.error "poll not found for this voter"

/-- The duplicate scan of AddVoterPoll (voter.go). -/
def hasPoll (l : List VoterHistory) (pollID : Int) : Bool :=
  l.any (fun vh => vh.PollId == pollID)

/-- AddVoterPoll (voter.go): reject a duplicate poll id, otherwise
append and write the whole document back through UpdateVoter. -/
def AddVoterPoll (s : Store) (voterPoll : VoterHistory) (voterId : Int) :
    Except String Unit × Store :=
  match GetVoter s voterId with
  | Except.error e => (Except.error e, s)
  | Except.ok voterItem =>
    if hasPoll (histList voterItem) voterPoll.PollId then
      (Except.error "poll already exists", s)
    else
      UpdateVoter s
        { voterItem with VoteHistory := goAppend voterItem.VoteHistory voterPoll }

/-- The loop of UpdateVoterPoll (voter.go): overwrite the first entry
whose `PollId` matches, `none` when no entry matches. -/
def updateFirstPoll : List VoterHistory → Int → VoterHistory → Option (List VoterHistory)
  | [], _, _ => none
  | vh :: rest, pollId, repl =>
    if vh.PollId = pollId then some (repl :: rest)
    else (updateFirstPoll rest pollId repl).map (fun rest2 => vh :: rest2)

/-- UpdateVoterPoll (voter.go). -/
def UpdateVoterPoll (s : Store) (voterPoll : VoterHistory) (voterId pollId : Int) :
    Except String Unit × Store :=
  match GetVoter s voterId with
  | Except.error e => (Except.error e, s)
  | Except.ok voterItem =>
    match updateFirstPoll (histList voterItem) pollId voterPoll with
    | some newHist => UpdateVoter s { voterItem with VoteHistory := some newHist }
    | none => (Except.error "poll not found for this voter", s)

/-- The loop of DeleteVoterPoll (voter.go): `append(s[:i], s[i+1:]...)`
removes the first entry whose `PollId` matches and leaves a non-nil
slice; `none` when no entry matches. -/
def deleteFirstPoll : List VoterHistory → Int → Option (List VoterHistory)
  | [], _ => none
  | vh :: rest, pollID =>
    if vh.PollId = pollID then some rest
    else (deleteFirstPoll rest pollID).map (fun rest2 => vh :: rest2)

/-- DeleteVoterPoll (voter.go). -/
def DeleteVoterPoll (s : Store) (voterID pollID : Int) :
    Except String Unit × Store :=
  match GetVoter s voterID with
  | Except.error e => (Except.error e, s)
  | Except.ok voterItem =>
    match deleteFirstPoll (histList voterItem) pollID with
    | some newHist => UpdateVoter s { voterItem with VoteHistory := some newHist }
    | none => (Except.error "poll not found for this voter", s)

end db

/-! ## HTTP handler layer (the api package, fiber handlers)

Each handler is a function of the store and the already-extracted
request pieces: a path parameter is `Option Int` (`none` models a
`c.ParamsInt` failure), a request body is `Option VoterHistory` or
`Option VoterItem` (`none` models a `c.BodyParser` failure).  A handler
that can write returns the new store alongside the response. -/

/-- HTTP status codes used by the handlers. -/
def StatusOK : Nat := 200

def StatusBadRequest : Nat := 400

def StatusNotFound : Nat := 404

def StatusInternalServerError : Nat := 500

/-- The observable response body.  Go `json.Marshal` of a nil slice
produces `null` and of a non-nil slice an array, so the two are kept
distinct. -/
inductive Body where
  | jsonNull
  | jsonVoterArr (items : List VoterItem)
  | jsonHistArr (items : List VoterHistory)
  | jsonVoter (item : VoterItem)
  | jsonHist (item : VoterHistory)
  | text (s : String)
  | empty
  deriving Repr, DecidableEq

/-- A handler response: HTTP status plus body. -/
structure HResp where
  status : Nat
  body : Body
  deriving Repr, DecidableEq

/-- Serialization by c.JSON of a `[]VoterItem` value: nil serializes
as `null`. -/
def marshalVoterSlice : Option (List VoterItem) → Body
  | none => Body.jsonNull
  | some l => Body.jsonVoterArr l

/-- Serialization by c.JSON of a `[]VoterHistory` value: nil serializes
as `null`. -/
def marshalHistSlice : Option (List VoterHistory) → Body
  | none => Body.jsonNull
  | some l => Body.jsonHistArr l

namespace api

/-- ListAllVoters handler (GET /voters): a nil result slice is replaced
by an empty slice before serialization. -/
def ListAllVoters (s : Store) : HResp :=
  match db.GetAllVoters s with
  | Except.error _ => ⟨StatusNotFound, Body.empty⟩
  | Except.ok voterList =>
    match voterList with
    | none => ⟨StatusOK, marshalVoterSlice (some [])⟩
    | some l => ⟨StatusOK, marshalVoterSlice (some l)⟩

/-- GetVoter handler (GET /voters/:id). -/
def GetVoter (s : Store) (idParam : Option Int) : HResp :=
  match idParam with
  | none => ⟨StatusBadRequest, Body.empty⟩
  | some id =>
    match db.GetVoter s id with
    | Except.error _ => ⟨StatusNotFound, Body.empty⟩
    | Except.ok voter => ⟨StatusOK, Body.jsonVoter voter⟩

/-- PostVoter handler (POST /voters). -/
def PostVoter (s : Store) (body : Option VoterItem) : HResp × Store :=
  match body with
  | none => (⟨StatusBadRequest, Body.empty⟩, s)
  | some voterItem =>
    match db.AddVoter s voterItem with
    | (Except.error _, s2) => (⟨StatusInternalServerError, Body.empty⟩, s2)
    | (Except.ok _, s2) => (⟨StatusOK, Body.jsonVoter voterItem⟩, s2)

/-- UpdateVoter handler (PUT /voters). -/
def UpdateVoter (s : Store) (body : Option VoterItem) : HResp × Store :=
  match body with
  | none => (⟨StatusBadRequest, Body.empty⟩, s)
  | some voterItem =>
    match db.UpdateVoter s voterItem with
    | (Except.error _, s2) => (⟨StatusInternalServerError, Body.empty⟩, s2)
    | (Except.ok _, s2) => (⟨StatusOK, Body.jsonVoter voterItem⟩, s2)

/-- DeleteVoter handler (DELETE /voters/:id). -/
def DeleteVoter (s : Store) (idParam : Option Int) : HResp × Store :=
  match idParam with
  | none => (⟨StatusBadRequest, Body.empty⟩, s)
  | some id =>
    match db.DeleteVoter s id with
    | (Except.error _, s2) => (⟨StatusInternalServerError, Body.empty⟩, s2)
    | (Except.ok _, s2) => (⟨StatusOK, Body.text "Delete OK"⟩, s2)

/-- DeleteAllVoters handler (DELETE /voters). -/
def DeleteAllVoters (s : Store) : HResp × Store :=
  match db.DeleteAll s with
  | (Except.error _, s2) => (⟨StatusInternalServerError, Body.empty⟩, s2)
  | (Except.ok _, s2) => (⟨StatusOK, Body.text "Delete All OK"⟩, s2)

/-- GetVoterPolls handler (GET /voters/:id/polls): serializes the raw
history slice of the fetched voter document. -/
def GetVoterPolls (s : Store) (idParam : Option Int) : HResp :=
  match idParam with
  | none => ⟨StatusBadRequest, Body.empty⟩
  | some id =>
    match db.GetVoter s id with
    | Except.error _ => ⟨StatusNotFound, Body.empty⟩
    | Except.ok voter => ⟨StatusOK, marshalHistSlice voter.VoteHistory⟩

/-- GetVoterPoll handler (GET /voters/:id/polls/:pollid): its own
linear scan over the fetched voter's history. -/
def GetVoterPoll (s : Store) (idParam pollParam : Option Int) : HResp :=
  match idParam with
  | none => ⟨StatusBadRequest, Body.empty⟩
  | some voterID =>
    match pollParam with
    | none => ⟨StatusBadRequest, Body.empty⟩
    | some pollID =>
      match db.GetVoter s voterID with
      | Except.error _ => ⟨StatusNotFound, Body.empty⟩
      | Except.ok voter =>
        match db.findPoll (histList voter) pollID with
        | some history => ⟨StatusOK, Body.jsonHist history⟩
        | none => ⟨StatusNotFound, Body.empty⟩

/-- PostVoterPoll handler (POST /voters/:id/polls/:pollid): fetches the
voter, appends the parsed body to its history unconditionally, and
writes the document back through db.UpdateVoter. -/
def PostVoterPoll (s : Store) (idParam : Option Int) (body : Option VoterHistory) :
    HResp × Store :=
  match idParam with
  | none => (⟨StatusBadRequest, Body.empty⟩, s)
  | some voterID =>
    match body with
    | none => (⟨StatusBadRequest, Body.empty⟩, s)
    | some voterHistory =>
      match db.GetVoter s voterID with
      | Except.error _ => (⟨StatusNotFound, Body.empty⟩, s)
      | Except.ok voter =>
        match db.UpdateVoter s
          { voter with VoteHistory := goAppend voter.VoteHistory voterHistory } with
        | (Except.error _, s2) => (⟨StatusInternalServerError, Body.empty⟩, s2)
        | (Except.ok _, s2) => (⟨StatusOK, Body.jsonHist voterHistory⟩, s2)

/-- UpdateVoterPoll handler (PUT /voters/:id/polls/:pollid): every
db.UpdateVoterPoll failure maps to the internal-error status. -/
def UpdateVoterPoll (s : Store) (idParam pollParam : Option Int)
    (body : Option VoterHistory) : HResp × Store :=
  match idParam with
  | none => (⟨StatusBadRequest, Body.empty⟩, s)
  | some voterID =>
    match pollParam with
    | none => (⟨StatusBadRequest, Body.empty⟩, s)
    | some pollID =>
      match body with
      | none => (⟨StatusBadRequest, Body.empty⟩, s)
      | some voterHistory =>
        match db.UpdateVoterPoll s voterHistory voterID pollID with
        | (Except.error _, s2) => (⟨StatusInternalServerError, Body.empty⟩, s2)
        | (Except.ok _, s2) => (⟨StatusOK, Body.jsonHist voterHistory⟩, s2)

/-- DeleteVoterPoll handler (DELETE /voters/:id/polls/:pollid): every
db.DeleteVoterPoll failure maps to the internal-error status. -/
def DeleteVoterPoll (s : Store) (idParam pollParam : Option Int) : HResp × Store :=
  match idParam with
  | none => (⟨StatusBadRequest, Body.empty⟩, s)
  | some voterID =>
    match pollParam with
    | none => (⟨StatusBadRequest, Body.empty⟩, s)
    | some pollID =>
      match db.DeleteVoterPoll s voterID pollID with
      | (Except.error _, s2) => (⟨StatusInternalServerError, Body.empty⟩, s2)
      | (Except.ok _, s2) =>
        (⟨StatusOK, Body.text "Voter history deleted successfully"⟩, s2)

end api

/-! ## Store lemmas -/

theorem kvGet_kvSet_self (s : Store) (k : String) (v : VoterItem) :
    kvGet (kvSet s k v) k = some v := by
  induction s with
  | nil => simp [kvSet, kvGet]
  | cons p rest ih =>
    rcases p with ⟨a, b⟩
    by_cases h : a = k <;> simp [kvSet, kvGet, h, ih]

theorem kvGet_kvEraseKey_self (s : Store) (k : String) :
    kvGet (kvEraseKey s k) k = none := by
  induction s with
  | nil => simp [kvEraseKey, kvGet]
  | cons p rest ih =>
    rcases p with ⟨a, b⟩
    by_cases h : a = k <;> simp [kvEraseKey, kvGet, h, ih]

theorem kvGet_kvEraseKey_other (s : Store) (k k2 : String) (hne : k2 ≠ k) :
    kvGet (kvEraseKey s k) k2 = kvGet s k2 := by
  induction s with
  | nil => simp [kvEraseKey]
  | cons p rest ih =>
    rcases p with ⟨a, b⟩
    by_cases h : a = k
    · have h2 : k ≠ k2 := fun hh => hne hh.symm
      simp [kvEraseKey, kvGet, h, h2, ih]
    · by_cases h2 : a = k2 <;> simp [kvEraseKey, kvGet, h, h2, hne, ih]

theorem kvEraseKey_of_absent (s : Store) (k : String) (h : kvGet s k = none) :
    kvEraseKey s k = s := by
  induction s with
  | nil => simp [kvEraseKey]
  | cons p rest ih =>
    rcases p with ⟨a, b⟩
    by_cases ha : a = k
    · simp [kvGet, ha] at h
    · simp [kvGet, ha] at h
      simp [kvEraseKey, ha, ih h]

theorem kvEraseKey_eq_filter (s : Store) (k : String) :
    kvEraseKey s k = s.filter (fun p => p.1 != k) := by
  induction s with
  | nil => simp [kvEraseKey]
  | cons p rest ih =>
    rcases p with ⟨a, b⟩
    by_cases h : a = k <;> simp [kvEraseKey, List.filter_cons, h, ih]

theorem kvGet_isSome_of_mem_keys (s : Store) (k : String)
    (h : k ∈ s.map Prod.fst) : (kvGet s k).isSome := by
  induction s with
  | nil => simp at h
  | cons p rest ih =>
    rcases p with ⟨a, b⟩
    rw [List.map_cons, List.mem_cons] at h
    by_cases ha : a = k
    · simp [kvGet, ha]
    · rcases h with h | h
      · exact absurd h.symm ha
      · simp only [kvGet]
        rw [if_neg ha]
        exact ih h

theorem kvDelLoop_snd (ks : List String) :
    ∀ s : Store, (kvDelLoop s ks).2 = s.filter (fun p => ! ks.contains p.1) := by
  induction ks with
  | nil => intro s; simp [kvDelLoop]
  | cons k ks ih =>
    intro s
    have h1 : (kvDelLoop s (k :: ks)).2 = (kvDelLoop (kvEraseKey s k) ks).2 := by
      simp [kvDelLoop]
    rw [h1, ih (kvEraseKey s k), kvEraseKey_eq_filter, List.filter_filter]
    apply List.filter_congr
    intro p _
    by_cases h2 : p.1 = k <;> by_cases h3 : ks.contains p.1 <;>
      simp [h2, h3, List.contains_cons]

theorem kvDelLoop_fst (ks : List String) (hnd : ks.Nodup) :
    ∀ s : Store, (∀ k ∈ ks, (kvGet s k).isSome) → (kvDelLoop s ks).1 = ks.length := by
  induction ks with
  | nil => intro s _; simp [kvDelLoop]
  | cons k ks ih =>
    intro s hall
    have hk : (kvGet s k).isSome := hall k (by simp)
    have hnd2 := List.nodup_cons.mp hnd
    have hrest : ∀ k2 ∈ ks, (kvGet (kvEraseKey s k) k2).isSome := by
      intro k2 hk2
      have hne : k2 ≠ k := by rintro rfl; exact hnd2.1 hk2
      rw [kvGet_kvEraseKey_other s k k2 hne]
      exact hall k2 (by simp [hk2])
    rw [kvDelLoop]
    simp only [hk, if_pos, ih hnd2.2 (kvEraseKey s k) hrest, List.length_cons]
    omega

/-! ## Poll-list lemmas -/

theorem hasPoll_eq_false_iff (l : List VoterHistory) (pid : Int) :
    db.hasPoll l pid = false ↔ ∀ x ∈ l, x.PollId ≠ pid := by
  simp [db.hasPoll]

theorem findPoll_append_last (l : List VoterHistory) (h : VoterHistory) (pid : Int)
    (hno : ∀ x ∈ l, x.PollId ≠ pid) (hh : h.PollId = pid) :
    db.findPoll (l ++ [h]) pid = some h := by
  induction l with
  | nil => simp [db.findPoll, hh]
  | cons x rest ih =>
    have hx : x.PollId ≠ pid := hno x (by simp)
    simp only [List.cons_append, db.findPoll, if_neg hx]
    exact ih (fun y hy => hno y (by simp [hy]))

theorem updateFirstPoll_split (l1 l2 : List VoterHistory) (vh repl : VoterHistory)
    (pid : Int) (hl1 : ∀ x ∈ l1, x.PollId ≠ pid) (hvh : vh.PollId = pid) :
    db.updateFirstPoll (l1 ++ vh :: l2) pid repl = some (l1 ++ repl :: l2) := by
  induction l1 with
  | nil => simp [db.updateFirstPoll, hvh]
  | cons x rest ih =>
    have hx : x.PollId ≠ pid := hl1 x (by simp)
    have ih2 := ih (fun y hy => hl1 y (by simp [hy]))
    simp [db.updateFirstPoll, hx, ih2]

theorem deleteFirstPoll_split (l1 l2 : List VoterHistory) (vh : VoterHistory)
    (pid : Int) (hl1 : ∀ x ∈ l1, x.PollId ≠ pid) (hvh : vh.PollId = pid) :
    db.deleteFirstPoll (l1 ++ vh :: l2) pid = some (l1 ++ l2) := by
  induction l1 with
  | nil => simp [db.deleteFirstPoll, hvh]
  | cons x rest ih =>
    have hx : x.PollId ≠ pid := hl1 x (by simp)
    have ih2 := ih (fun y hy => hl1 y (by simp [hy]))
    simp [db.deleteFirstPoll, hx, ih2]

theorem updateFirstPoll_eq_none (l : List VoterHistory) (pid : Int) (repl : VoterHistory)
    (h : ∀ x ∈ l, x.PollId ≠ pid) : db.updateFirstPoll l pid repl = none := by
  induction l with
  | nil => simp [db.updateFirstPoll]
  | cons x rest ih =>
    have hx : x.PollId ≠ pid := h x (by simp)
    simp [db.updateFirstPoll, hx, ih (fun y hy => h y (by simp [hy]))]

theorem deleteFirstPoll_eq_none (l : List VoterHistory) (pid : Int)
    (h : ∀ x ∈ l, x.PollId ≠ pid) : db.deleteFirstPoll l pid = none := by
  induction l with
  | nil => simp [db.deleteFirstPoll]
  | cons x rest ih =>
    have hx : x.PollId ≠ pid := h x (by simp)
    simp [db.deleteFirstPoll, hx, ih (fun y hy => h y (by simp [hy]))]

/-! ## Concrete example data, used by witnesses and counterexamples -/

/-- Example history entry for poll 1. -/
def exHist1 : VoterHistory := ⟨1, 1, 100⟩

/-- Example history entry for poll 2. -/
def exHist2 : VoterHistory := ⟨2, 7, 200⟩

/-- A second entry for poll 1, distinct from `exHist1`. -/
def exHist1b : VoterHistory := ⟨1, 9, 300⟩

/-- An entry for poll 3, absent from `exVoter`. -/
def exHist3 : VoterHistory := ⟨3, 4, 500⟩

/-- A replacement entry whose poll id is 2. -/
def exRepl : VoterHistory := ⟨2, 5, 400⟩

/-- Example voter 1 with history for polls 1 and 2. -/
def exVoter : VoterItem := ⟨1, "Jane Smith", "jane@example.com", some [exHist1, exHist2]⟩

/-- Example voter 1 with a nil history slice. -/
def exVoterNil : VoterItem := ⟨1, "Jane Smith", "jane@example.com", none⟩

/-- Example voter 1 with a non-nil empty history slice. -/
def exVoterEmpty : VoterItem := ⟨1, "Jane Smith", "jane@example.com", some []⟩

/-- Store holding `exVoter` under its key. -/
def exStore : Store := [("voter:1", exVoter)]

/-- Store holding `exVoterNil` under its key. -/
def exStoreNil : Store := [("voter:1", exVoterNil)]

/-- Store holding `exVoterEmpty` under its key. -/
def exStoreEmpty : Store := [("voter:1", exVoterEmpty)]

/-- Store holding one voter key and one unrelated key. -/
def exStoreMixed : Store := [("voter:1", exVoter), ("other", exVoterNil)]

/-! ## Claims -/

/-- C5: AddVoter returns an error and leaves the store unchanged when
an item with the voter's identifier is already stored; when the key is
absent it succeeds, writes the item, and a subsequent GetVoter with
that identifier returns an item with identical field values. -/
theorem addVoter_dup_rejected_new_retrievable (s : Store) (v : VoterItem) :
    (∀ w, kvGet s (db.redisKeyFromId v.VoterId) = some w →
      db.AddVoter s v = (Except.error "voter already exists", s)) ∧
    (kvGet s (db.redisKeyFromId v.VoterId) = none →
      db.AddVoter s v = (Except.ok (), kvSet s (db.redisKeyFromId v.VoterId) v) ∧
      db.GetVoter (db.AddVoter s v).2 v.VoterId = Except.ok v) := by
  constructor
  · intro w hw
    simp [db.AddVoter, db.getVoterFromRedis, hw]
  · intro h
    have h1 : db.AddVoter s v =
        (Except.ok (), kvSet s (db.redisKeyFromId v.VoterId) v) := by
      simp [db.AddVoter, db.getVoterFromRedis, h]
    refine ⟨h1, ?_⟩
    rw [h1]
    simp [db.GetVoter, db.getVoterFromRedis, kvGet_kvSet_self]

/-- Witness for C5 at a concrete store: the duplicate insert of voter 1
is rejected and a fresh voter 2 is inserted and read back. -/
theorem addVoter_dup_rejected_new_retrievable_witness :
    (kvGet exStore (db.redisKeyFromId exVoter.VoterId) = some exVoter ∧
      kvGet exStore (db.redisKeyFromId (2 : Int)) = none) ∧
    db.AddVoter exStore exVoter = (Except.error "voter already exists", exStore) ∧
    db.GetVoter (db.AddVoter exStore ⟨2, "Bob", "bob@example.com", none⟩).2 2 =
      Except.ok ⟨2, "Bob", "bob@example.com", none⟩ := by
  refine ⟨⟨by decide, by decide⟩, ?_, ?_⟩
  · exact (addVoter_dup_rejected_new_retrievable exStore exVoter).1 exVoter (by decide)
  · exact ((addVoter_dup_rejected_new_retrievable exStore
      ⟨2, "Bob", "bob@example.com", none⟩).2 (by decide)).2

/-- C6: UpdateVoter returns an error and leaves the store unchanged
when no item with the voter's identifier is stored; when one is, it
overwrites the stored document wholesale, so a subsequent GetVoter
returns exactly the new item. -/
theorem updateVoter_missing_rejected_else_overwrites (s : Store) (v : VoterItem) :
    (kvGet s (db.redisKeyFromId v.VoterId) = none →
      db.UpdateVoter s v = (Except.error "voter does not exist", s)) ∧
    (∀ w, kvGet s (db.redisKeyFromId v.VoterId) = some w →
      db.UpdateVoter s v = (Except.ok (), kvSet s (db.redisKeyFromId v.VoterId) v) ∧
      db.GetVoter (db.UpdateVoter s v).2 v.VoterId = Except.ok v) := by
  constructor
  · intro h
    simp [db.UpdateVoter, db.getVoterFromRedis, h]
  · intro w hw
    have h1 : db.UpdateVoter s v =
        (Except.ok (), kvSet s (db.redisKeyFromId v.VoterId) v) := by
      simp [db.UpdateVoter, db.getVoterFromRedis, hw]
    refine ⟨h1, ?_⟩
    rw [h1]
    simp [db.GetVoter, db.getVoterFromRedis, kvGet_kvSet_self]

/-- Witness for C6 at a concrete store: replacing absent voter 2 fails
and replacing stored voter 1 fully overwrites the prior field values. -/
theorem updateVoter_missing_rejected_else_overwrites_witness :
    (kvGet exStore (db.redisKeyFromId (2 : Int)) = none ∧
      kvGet exStore (db.redisKeyFromId exVoterNil.VoterId) = some exVoter) ∧
    db.UpdateVoter exStore ⟨2, "Bob", "bob@example.com", none⟩ =
      (Except.error "voter does not exist", exStore) ∧
    db.GetVoter (db.UpdateVoter exStore exVoterNil).2 exVoterNil.VoterId =
      Except.ok exVoterNil := by
  refine ⟨⟨by decide, by decide⟩, ?_, ?_⟩
  · exact (updateVoter_missing_rejected_else_overwrites exStore
      ⟨2, "Bob", "bob@example.com", none⟩).1 (by decide)
  · exact ((updateVoter_missing_rejected_else_overwrites exStore
      exVoterNil).2 exVoter (by decide)).2

/-- C9: DeleteVoter returns an error exactly when no key for the
identifier exists (the store is left unchanged), and succeeds when the
voter exists, after which the voter's key is no longer present. -/
theorem deleteVoter_errors_iff_absent (s : Store) (id : Int) :
    (kvGet s (db.redisKeyFromId id) = none →
      db.DeleteVoter s id =
        (Except.error "attempted to delete non-existent voterr", s)) ∧
    (∀ w, kvGet s (db.redisKeyFromId id) = some w →
      (db.DeleteVoter s id).1 = Except.ok () ∧
      kvGet (db.DeleteVoter s id).2 (db.redisKeyFromId id) = none) := by
  constructor
  · intro h
    simp [db.DeleteVoter, kvDel, kvDelLoop, h,
      kvEraseKey_of_absent s (db.redisKeyFromId id) h]
  · intro w hw
    constructor
    · simp [db.DeleteVoter, kvDel, kvDelLoop, hw]
    · simp [db.DeleteVoter, kvDel, kvDelLoop, hw, kvGet_kvEraseKey_self]

/-- Witness for C9 at a concrete store: deleting absent voter 2 fails
with the store unchanged; deleting stored voter 1 succeeds and removes
the key. -/
theorem deleteVoter_errors_iff_absent_witness :
    (kvGet exStore (db.redisKeyFromId (2 : Int)) = none ∧
      kvGet exStore (db.redisKeyFromId (1 : Int)) = some exVoter) ∧
    db.DeleteVoter exStore 2 =
      (Except.error "attempted to delete non-existent voterr", exStore) ∧
    (db.DeleteVoter exStore 1).1 = Except.ok () ∧
    kvGet (db.DeleteVoter exStore 1).2 (db.redisKeyFromId 1) = none := by
  refine ⟨⟨by decide, by decide⟩, ?_, ?_, ?_⟩
  · exact (deleteVoter_errors_iff_absent exStore 2).1 (by decide)
  · exact ((deleteVoter_errors_iff_absent exStore 1).2 exVoter (by decide)).1
  · exact ((deleteVoter_errors_iff_absent exStore 1).2 exVoter (by decide)).2

/-- C4: for a stored voter, the data-access AddVoterPoll returns an
error and leaves the stored document unchanged when the history already
has an entry with the new entry's poll identifier, and otherwise
appends the entry to the end of the history and writes the document
back. -/
theorem addVoterPoll_dup_rejected_else_appended (s : Store) (v : VoterItem)
    (h : VoterHistory) (id : Int)
    (hv : kvGet s (db.redisKeyFromId id) = some v) (hid : v.VoterId = id) :
    (db.hasPoll (histList v) h.PollId = true →
      db.AddVoterPoll s h id = (Except.error "poll already exists", s)) ∧
    (db.hasPoll (histList v) h.PollId = false →
      db.AddVoterPoll s h id =
        (Except.ok (), kvSet s (db.redisKeyFromId id)
          { v with VoteHistory := some (histList v ++ [h]) })) := by
  constructor
  · intro hp
    simp [db.AddVoterPoll, db.GetVoter, db.getVoterFromRedis, hv, hp]
  · intro hp
    simp only [histList, sliceElems] at hp
    simp [db.AddVoterPoll, db.GetVoter, db.getVoterFromRedis, hv, hp,
      db.UpdateVoter, hid, goAppend, histList, sliceElems]

/-- Witness for C4 at a concrete store: adding a second entry for poll
1 is rejected with the store unchanged; adding an entry for fresh poll
3 appends it and writes the document back. -/
theorem addVoterPoll_dup_rejected_else_appended_witness :
    (kvGet exStore (db.redisKeyFromId (1 : Int)) = some exVoter ∧
      exVoter.VoterId = 1 ∧
      db.hasPoll (histList exVoter) exHist1b.PollId = true ∧
      db.hasPoll (histList exVoter) exHist3.PollId = false) ∧
    db.AddVoterPoll exStore exHist1b 1 =
      (Except.error "poll already exists", exStore) ∧
    db.AddVoterPoll exStore exHist3 1 =
      (Except.ok (), kvSet exStore (db.redisKeyFromId 1)
        { exVoter with VoteHistory := some (histList exVoter ++ [exHist3]) }) := by
  refine ⟨⟨by decide, by decide, by decide, by decide⟩, ?_, ?_⟩
  · exact (addVoterPoll_dup_rejected_else_appended exStore exVoter exHist1b 1
      (by decide) (by decide)).1 (by decide)
  · exact (addVoterPoll_dup_rejected_else_appended exStore exVoter exHist3 1
      (by decide) (by decide)).2 (by decide)

/-- C7: when a stored voter's history splits as a matchless block, a
first matching entry, and a tail, UpdateVoterPoll replaces exactly that
first matching entry and DeleteVoterPoll removes exactly it; the other
entries, their order, and the voter's identifier, name, and email
fields are unchanged by either operation. -/
theorem updateDeleteVoterPoll_first_match_only (s : Store) (v : VoterItem)
    (id pid : Int) (repl : VoterHistory) (l1 l2 : List VoterHistory)
    (vh : VoterHistory)
    (hv : kvGet s (db.redisKeyFromId id) = some v) (hid : v.VoterId = id)
    (hsplit : histList v = l1 ++ vh :: l2)
    (hl1 : ∀ x ∈ l1, x.PollId ≠ pid) (hvh : vh.PollId = pid) :
    db.UpdateVoterPoll s repl id pid =
      (Except.ok (), kvSet s (db.redisKeyFromId id)
        { v with VoteHistory := some (l1 ++ repl :: l2) }) ∧
    db.DeleteVoterPoll s id pid =
      (Except.ok (), kvSet s (db.redisKeyFromId id)
        { v with VoteHistory := some (l1 ++ l2) }) := by
  have hu := updateFirstPoll_split l1 l2 vh repl pid hl1 hvh
  have hd := deleteFirstPoll_split l1 l2 vh pid hl1 hvh
  rw [← hsplit] at hu hd
  constructor
  · simp [db.UpdateVoterPoll, db.GetVoter, db.getVoterFromRedis, hv, hu,
      db.UpdateVoter, hid, histList, sliceElems] at hu ⊢
  · simp [db.DeleteVoterPoll, db.GetVoter, db.getVoterFromRedis, hv, hd,
      db.UpdateVoter, hid, histList, sliceElems] at hd ⊢

/-- Witness for C7 at a concrete store: replacing or deleting the poll
2 entry of `exVoter` mutates only that entry, leaving the poll 1 entry
and the voter fields intact. -/
theorem updateDeleteVoterPoll_first_match_only_witness :
    (kvGet exStore (db.redisKeyFromId (1 : Int)) = some exVoter ∧
      exVoter.VoterId = 1 ∧
      histList exVoter = [exHist1] ++ exHist2 :: [] ∧
      (∀ x ∈ [exHist1], x.PollId ≠ (2 : Int)) ∧
      exHist2.PollId = 2) ∧
    db.UpdateVoterPoll exStore exRepl 1 2 =
      (Except.ok (), kvSet exStore (db.redisKeyFromId 1)
        { exVoter with VoteHistory := some ([exHist1] ++ exRepl :: []) }) ∧
    db.DeleteVoterPoll exStore 1 2 =
      (Except.ok (), kvSet exStore (db.redisKeyFromId 1)
        { exVoter with VoteHistory := some ([exHist1] ++ []) }) := by
  have h := updateDeleteVoterPoll_first_match_only exStore exVoter 1 2 exRepl
    [exHist1] [] exHist2 (by decide) (by decide) (by decide) (by decide) (by decide)
  exact ⟨⟨by decide, by decide, by decide, by decide, by decide⟩, h.1, h.2⟩

/-- C8 counterexample: on the empty store, getAllKeys is empty, the
zero-key DEL that go-redis then issues is rejected by the server, and
DeleteAll returns that error rather than a count without error. -/
theorem deleteAll_empty_store_errors :
    db.DeleteAll ([] : Store) =
      (Except.error "ERR wrong number of arguments for 'del' command",
       ([] : Store)) := by
  decide

/-- C8 (amended): when at least one key matches the fixed `voter:`
glob, DeleteAll deletes every matching key so that none remains and
returns their count without error; when no key matches — the empty
store included — the zero-key DEL errors and DeleteAll returns that
error with the store unchanged. -/
theorem deleteAll_removes_all_keys (s : Store)
    (hnd : (s.map Prod.fst).Nodup) :
    (db.getAllKeys s ≠ [] →
      db.DeleteAll s =
        (Except.ok (db.getAllKeys s).length,
         s.filter (fun p => ! hasVoterKeyPfx p.1)) ∧
      db.getAllKeys (db.DeleteAll s).2 = []) ∧
    (db.getAllKeys s = [] →
      db.DeleteAll s =
        (Except.error "ERR wrong number of arguments for 'del' command", s)) := by
  have hks_nd : (db.getAllKeys s).Nodup := hnd.filter _
  have hall : ∀ k ∈ db.getAllKeys s, (kvGet s k).isSome := by
    intro k hk
    exact kvGet_isSome_of_mem_keys s k (List.mem_of_mem_filter hk)
  have hcount := kvDelLoop_fst (db.getAllKeys s) hks_nd s hall
  have hstore : (kvDelLoop s (db.getAllKeys s)).2 =
      s.filter (fun p => ! hasVoterKeyPfx p.1) := by
    rw [kvDelLoop_snd (db.getAllKeys s) s]
    apply List.filter_congr
    intro p hp
    have hmem : p.1 ∈ s.map Prod.fst := List.mem_map.mpr ⟨p, hp, rfl⟩
    by_cases hpf : hasVoterKeyPfx p.1
    · have hin : p.1 ∈ db.getAllKeys s :=
        List.mem_filter.mpr ⟨hmem, hpf⟩
      simp [hin, hpf]
    · have hout : p.1 ∉ db.getAllKeys s := by
        intro hin
        exact hpf (List.of_mem_filter hin)
      simp [hout, hpf]
  refine ⟨fun hne => ?_, fun hk => ?_⟩
  · have hdel : db.DeleteAll s =
        (Except.ok (kvDelLoop s (db.getAllKeys s)).1,
         (kvDelLoop s (db.getAllKeys s)).2) := by
      obtain ⟨k, ks2, hks⟩ := List.exists_cons_of_ne_nil hne
      simp only [db.DeleteAll, kvDel, hks]
    have hres : db.DeleteAll s =
        (Except.ok (db.getAllKeys s).length,
         s.filter (fun p => ! hasVoterKeyPfx p.1)) := by
      rw [hdel, hcount, hstore]
    refine ⟨hres, ?_⟩
    rw [hres]
    simp only [db.getAllKeys]
    rw [List.filter_eq_nil_iff]
    intro a ha
    rcases List.mem_map.mp ha with ⟨p, hp, rfl⟩
    have := List.of_mem_filter hp
    simp at this
    simp [this]
  · simp [db.DeleteAll, kvDel, hk]

/-- Witness for the amended C8: on a store holding one `voter:` key
and one unrelated key, the voter key is deleted and counted, the other
key survives, and no `voter:` key remains; on the empty store the
zero-key DEL error is returned with the store unchanged. -/
theorem deleteAll_removes_all_keys_witness :
    ((exStoreMixed.map Prod.fst).Nodup ∧
      db.getAllKeys exStoreMixed ≠ [] ∧
      (([] : Store).map Prod.fst).Nodup ∧
      db.getAllKeys ([] : Store) = []) ∧
    db.DeleteAll exStoreMixed =
      (Except.ok (db.getAllKeys exStoreMixed).length,
       exStoreMixed.filter (fun p => ! hasVoterKeyPfx p.1)) ∧
    db.getAllKeys (db.DeleteAll exStoreMixed).2 = [] ∧
    db.DeleteAll ([] : Store) =
      (Except.error "ERR wrong number of arguments for 'del' command",
       ([] : Store)) := by
  have h1 := deleteAll_removes_all_keys exStoreMixed (by decide)
  have h2 := deleteAll_removes_all_keys ([] : Store) (by decide)
  exact ⟨⟨by decide, by decide, by decide, by decide⟩,
    (h1.1 (by decide)).1, (h1.1 (by decide)).2, h2.2 (by decide)⟩

/-- C10: uniqueness of poll identifiers within one voter's history is
not an invariant: starting from `exVoter`, whose history has the
distinct poll ids 1 and 2, the public operation UpdateVoterPoll with a
replacement entry for poll id 2 targeted at the poll 1 entry succeeds
and leaves the stored history with two entries for poll id 2. -/
theorem pollId_uniqueness_not_invariant :
    ((histList exVoter).map VoterHistory.PollId).Nodup ∧
    (db.UpdateVoterPoll exStore exRepl 1 1).1 = Except.ok () ∧
    ¬ ((histList ((kvGet (db.UpdateVoterPoll exStore exRepl 1 1).2
        "voter:1").getD ⟨0, "", "", none⟩)).map VoterHistory.PollId).Nodup := by
  exact ⟨by decide, by decide, by decide⟩

/-- C1 counterexample: voter 1 already has an entry for poll 1, yet the
POST handler succeeds with HTTP 200 and appends a second poll 1 entry,
where the claim demands failure with the stored voter unchanged. -/
theorem postVoterPoll_dup_not_rejected :
    (api.PostVoterPoll exStore (some 1) (some exHist1b)).1.status = StatusOK ∧
    kvGet (api.PostVoterPoll exStore (some 1) (some exHist1b)).2 "voter:1" =
      some ⟨1, "Jane Smith", "jane@example.com",
        some [exHist1, exHist2, exHist1b]⟩ := by
  exact ⟨by decide, by decide⟩

/-- C1 (amended): the POST poll handler appends the parsed body to the
stored voter's history unconditionally, duplicate poll identifier or
not, and responds 200; when no entry with the body's poll identifier
was present, the appended entry is subsequently returned by both the
history-list and single-entry GET handlers. -/
theorem postVoterPoll_appends_unconditionally (s : Store) (v : VoterItem)
    (id : Int) (h : VoterHistory)
    (hv : kvGet s (db.redisKeyFromId id) = some v) (hid : v.VoterId = id) :
    api.PostVoterPoll s (some id) (some h) =
      (⟨StatusOK, Body.jsonHist h⟩,
       kvSet s (db.redisKeyFromId id)
         { v with VoteHistory := some (histList v ++ [h]) }) ∧
    (db.hasPoll (histList v) h.PollId = false →
      api.GetVoterPolls (api.PostVoterPoll s (some id) (some h)).2 (some id) =
        ⟨StatusOK, Body.jsonHistArr (histList v ++ [h])⟩ ∧
      api.GetVoterPoll (api.PostVoterPoll s (some id) (some h)).2 (some id)
          (some h.PollId) = ⟨StatusOK, Body.jsonHist h⟩) := by
  have hmain : api.PostVoterPoll s (some id) (some h) =
      (⟨StatusOK, Body.jsonHist h⟩,
       kvSet s (db.redisKeyFromId id)
         { v with VoteHistory := some (histList v ++ [h]) }) := by
    simp [api.PostVoterPoll, db.GetVoter, db.getVoterFromRedis, hv,
      db.UpdateVoter, hid, goAppend, histList, sliceElems]
  refine ⟨hmain, fun hnd => ?_⟩
  have hfind := findPoll_append_last (histList v) h h.PollId
    ((hasPoll_eq_false_iff (histList v) h.PollId).mp hnd) rfl
  simp only [histList, sliceElems] at hfind
  rw [hmain]
  constructor
  · simp [api.GetVoterPolls, db.GetVoter, db.getVoterFromRedis,
      kvGet_kvSet_self, marshalHistSlice]
  · simp [api.GetVoterPoll, db.GetVoter, db.getVoterFromRedis,
      kvGet_kvSet_self, histList, sliceElems, hfind]

/-- Witness for the amended C1 at a concrete store: posting the fresh
poll 3 entry appends it, and both GET handlers then return it. -/
theorem postVoterPoll_appends_unconditionally_witness :
    (kvGet exStore (db.redisKeyFromId (1 : Int)) = some exVoter ∧
      exVoter.VoterId = 1 ∧
      db.hasPoll (histList exVoter) exHist3.PollId = false) ∧
    api.PostVoterPoll exStore (some 1) (some exHist3) =
      (⟨StatusOK, Body.jsonHist exHist3⟩,
       kvSet exStore (db.redisKeyFromId 1)
         { exVoter with VoteHistory := some (histList exVoter ++ [exHist3]) }) ∧
    api.GetVoterPolls (api.PostVoterPoll exStore (some 1) (some exHist3)).2
        (some 1) = ⟨StatusOK, Body.jsonHistArr (histList exVoter ++ [exHist3])⟩ ∧
    api.GetVoterPoll (api.PostVoterPoll exStore (some 1) (some exHist3)).2
        (some 1) (some exHist3.PollId) = ⟨StatusOK, Body.jsonHist exHist3⟩ := by
  have h := postVoterPoll_appends_unconditionally exStore exVoter 1 exHist3
    (by decide) (by decide)
  exact ⟨⟨by decide, by decide, by decide⟩, h.1, (h.2 (by decide)).1,
    (h.2 (by decide)).2⟩

/-- C2 counterexample: voter 1 is stored with an empty history, so poll
2 is missing, yet the PUT and DELETE poll handlers return 500, not the
claimed 404. -/
theorem updateDeletePoll_500_counterexample :
    api.UpdateVoterPoll exStoreEmpty (some 1) (some 2) (some exRepl) =
      (⟨StatusInternalServerError, Body.empty⟩, exStoreEmpty) ∧
    api.DeleteVoterPoll exStoreEmpty (some 1) (some 2) =
      (⟨StatusInternalServerError, Body.empty⟩, exStoreEmpty) ∧
    StatusInternalServerError ≠ StatusNotFound := by
  exact ⟨by decide, by decide, by decide⟩

/-- C2 (amended): for every stored voter whose history has no entry
with the given poll identifier, the PUT and DELETE poll-entry handlers
respond with the internal-error status 500 and leave the store
unchanged; the data-access not-found failure is not mapped to 404 by
these handlers. -/
theorem updateDeletePollHandlers_500_on_missing_poll (s : Store)
    (v : VoterItem) (id pid : Int) (body : VoterHistory)
    (hv : kvGet s (db.redisKeyFromId id) = some v)
    (hnone : db.hasPoll (histList v) pid = false) :
    api.UpdateVoterPoll s (some id) (some pid) (some body) =
      (⟨StatusInternalServerError, Body.empty⟩, s) ∧
    api.DeleteVoterPoll s (some id) (some pid) =
      (⟨StatusInternalServerError, Body.empty⟩, s) := by
  have hno := (hasPoll_eq_false_iff (histList v) pid).mp hnone
  have hu := updateFirstPoll_eq_none (histList v) pid body hno
  have hd := deleteFirstPoll_eq_none (histList v) pid hno
  constructor
  · simp [api.UpdateVoterPoll, db.UpdateVoterPoll, db.GetVoter,
      db.getVoterFromRedis, hv, hu]
  · simp [api.DeleteVoterPoll, db.DeleteVoterPoll, db.GetVoter,
      db.getVoterFromRedis, hv, hd]

/-- Witness for the amended C2 at a concrete store: voter 1 has
history for polls 1 and 2 only, so PUT and DELETE for poll 3 both
return 500 with the store unchanged. -/
theorem updateDeletePollHandlers_500_on_missing_poll_witness :
    (kvGet exStore (db.redisKeyFromId (1 : Int)) = some exVoter ∧
      db.hasPoll (histList exVoter) (3 : Int) = false) ∧
    api.UpdateVoterPoll exStore (some 1) (some 3) (some exRepl) =
      (⟨StatusInternalServerError, Body.empty⟩, exStore) ∧
    api.DeleteVoterPoll exStore (some 1) (some 3) =
      (⟨StatusInternalServerError, Body.empty⟩, exStore) := by
  have h := updateDeletePollHandlers_500_on_missing_poll exStore exVoter 1 3
    exRepl (by decide) (by decide)
  exact ⟨⟨by decide, by decide⟩, h.1, h.2⟩

/-- C3 counterexample: voter 1 is stored with a nil history slice (as
the repository's own test inserts it), and the poll-list handler then
serializes the body as JSON null, not as an empty array. -/
theorem getVoterPolls_null_body_counterexample :
    api.GetVoterPolls exStoreNil (some 1) = ⟨StatusOK, Body.jsonNull⟩ ∧
    Body.jsonNull ≠ Body.jsonHistArr [] := by
  exact ⟨by decide, by decide⟩

/-- C3 (amended): ListAllVoters serializes an empty JSON array, never
null, whenever no key matches the voter glob; GetVoterPolls serializes
an empty JSON array when the stored history is the non-nil empty
slice, but serializes JSON null when the stored history is the nil
slice. -/
theorem listEndpoints_empty_serialization (s : Store) (id : Int) (v : VoterItem) :
    (db.getAllKeys s = [] →
      api.ListAllVoters s = ⟨StatusOK, Body.jsonVoterArr []⟩) ∧
    (kvGet s (db.redisKeyFromId id) = some v → v.VoteHistory = some [] →
      api.GetVoterPolls s (some id) = ⟨StatusOK, Body.jsonHistArr []⟩) ∧
    (kvGet s (db.redisKeyFromId id) = some v → v.VoteHistory = none →
      api.GetVoterPolls s (some id) = ⟨StatusOK, Body.jsonNull⟩) := by
  refine ⟨fun hk => ?_, fun hv hh => ?_, fun hv hh => ?_⟩
  · simp [api.ListAllVoters, db.GetAllVoters, hk, db.getAllVotersLoop,
      marshalVoterSlice]
  · simp [api.GetVoterPolls, db.GetVoter, db.getVoterFromRedis, hv, hh,
      marshalHistSlice]
  · simp [api.GetVoterPolls, db.GetVoter, db.getVoterFromRedis, hv, hh,
      marshalHistSlice]

/-- Witness for the amended C3 at concrete stores: the voter list over
an empty store is `[]`, the poll list of a voter with a non-nil empty
history is `[]`, and the poll list of a voter with a nil history is
JSON null. -/
theorem listEndpoints_empty_serialization_witness :
    (db.getAllKeys ([] : Store) = [] ∧
      kvGet exStoreEmpty (db.redisKeyFromId (1 : Int)) = some exVoterEmpty ∧
      exVoterEmpty.VoteHistory = some [] ∧
      kvGet exStoreNil (db.redisKeyFromId (1 : Int)) = some exVoterNil ∧
      exVoterNil.VoteHistory = none) ∧
    api.ListAllVoters ([] : Store) = ⟨StatusOK, Body.jsonVoterArr []⟩ ∧
    api.GetVoterPolls exStoreEmpty (some 1) = ⟨StatusOK, Body.jsonHistArr []⟩ ∧
    api.GetVoterPolls exStoreNil (some 1) = ⟨StatusOK, Body.jsonNull⟩ := by
  refine ⟨⟨by decide, by decide, by decide, by decide, by decide⟩, ?_, ?_, ?_⟩
  · exact (listEndpoints_empty_serialization ([] : Store) 1 exVoterEmpty).1
      (by decide)
  · exact (listEndpoints_empty_serialization exStoreEmpty 1 exVoterEmpty).2.1
      (by decide) (by decide)
  · exact (listEndpoints_empty_serialization exStoreNil 1 exVoterNil).2.2
      (by decide) (by decide)

end VoterContainer
